import Mathlib

/-!
Shallow embedding of the service-worker caching engine
(`src/client/scripts/generate-sitemap.js`, service-worker section):
request dispatcher, the three strategies (cacheFirst, networkFirst,
staleWhileRevalidate), limitCacheSize eviction, and the
install / activate / message lifecycle handlers.

Modelling conventions:
- A `Response` is a value `{status, body}`; `Response.clone` mirrors the
  platform `response.clone()` (which yields an equal, independently
  consumable response).
- The cache store is explicit state: a `CacheStorage` is a list of named
  caches in creation order; each `Cache` is a list of `(url, response)`
  entries in insertion order, as the Cache API enumerates keys.
- `caches.match(request)` searches all caches in order (the platform
  `CacheStorage.match`), `cachePut` removes any entry with the same key
  and appends the new entry at the end (the platform batch cache
  operation), `cachesOpen` lazily creates a missing cache.
- The network is a function `url -> Option Response`; `none` means the
  fetch rejects, `some r` that it resolves with `r`.
- `cache.delete` may reject at the platform level; the outcome of each
  individual deletion is an oracle `delOk : url -> Bool` passed to
  `limitCacheSize` (`fun _ => true` is the normal all-succeed run).
  All deletions are initiated eagerly (`toDelete.map` before
  `Promise.all`), so a deletion whose own oracle says success is applied
  even when another deletion fails; the `resolved` flag is the settled
  state of the `Promise.all`.
- JS `s.startsWith(p)` is embedded character-wise as `jsStartsWith`.
- Console output relevant to the claims is an explicit log list.
-/

namespace SW

/-- An HTTP response value: status code and body. `Response.clone`
mirrors the platform clone (an equal response). -/
structure Response where
  status : Nat
  body : String
deriving DecidableEq, Repr

def Response.clone (r : Response) : Response := r

/-- Platform `response.ok`: status in the range 200-299. `cache.addAll`
rejects when a fetched response is not ok. -/
def Response.ok (r : Response) : Bool := 200 ≤ r.status && r.status < 300

/-- `new Response('Offline', { status: 503 })`. -/
def offlineResponse : Response := { status := 503, body := "Offline" }

/-- A named cache: entries `(url, response)` in insertion order. -/
abbrev Cache := List (String × Response)

/-- The cache store: named caches in creation order. -/
abbrev CacheStorage := List (String × Cache)

/-- Network model: `none` = fetch rejects, `some r` = resolves with `r`. -/
abbrev Network := String → Option Response

/-- JS `s.startsWith(p)`: character-level prefix test. -/
def jsStartsWith (s p : String) : Bool := List.isPrefixOf p.data s.data

/-- Lookup of a url inside one cache (`cache.match`). -/
def cacheMatch (c : Cache) (url : String) : Option Response :=
  (c.find? (fun e => e.1 == url)).map (fun e => e.2)

/-- Platform `caches.match(request)`: searches every cache in creation order and
returns the first hit. -/
def cachesMatch : CacheStorage → String → Option Response
  | [], _ => none
  | (_, c) :: rest, url =>
    match cacheMatch c url with
    | some r => some r
    | none => cachesMatch rest url

/-- Platform `caches.open(name)`: lazily creates the named cache. -/
def cachesOpen (st : CacheStorage) (name : String) : CacheStorage :=
  if st.any (fun p => p.1 == name) then st else st ++ [(name, [])]

/-- The cache currently stored under `name` (empty if absent). -/
def getCache (st : CacheStorage) (name : String) : Cache :=
  ((st.find? (fun p => p.1 == name)).map (fun p => p.2)).getD []

/-- Platform `cache.put(request, response)`: removes entries with the same key and
appends the new entry at the end. -/
def cachePut (st : CacheStorage) (name : String) (url : String) (r : Response) :
    CacheStorage :=
  st.map (fun p =>
    if p.1 == name then (p.1, p.2.filter (fun e => e.1 != url) ++ [(url, r)]) else p)

/-- Platform `cache.delete(key)`: removes the entry with that key. -/
def cacheDeleteKey (st : CacheStorage) (name : String) (url : String) :
    CacheStorage :=
  st.map (fun p => if p.1 == name then (p.1, p.2.filter (fun e => e.1 != url)) else p)

/-- Platform `caches.delete(name)`: removes the whole named cache. -/
def cachesDelete (st : CacheStorage) (name : String) : CacheStorage :=
  st.filter (fun p => p.1 != name)

/-! Source constants. -/

def CACHE_VERSION : String := "dev-1772130527350"

/-- Template literal static-v. -/
def staticCacheName (v : String) : String := "static-" ++ v

/-- Template literal dynamic-v. -/
def dynamicCacheName (v : String) : String := "dynamic-" ++ v

/-- Template literal images-v. -/
def imagesCacheName (v : String) : String := "images-" ++ v

def STATIC_CACHE : String := staticCacheName CACHE_VERSION
def DYNAMIC_CACHE : String := dynamicCacheName CACHE_VERSION
def IMAGE_CACHE : String := imagesCacheName CACHE_VERSION

def STATIC_ASSETS : List String := ["/", "/index.html", "/manifest.json", "/favicon.png"]

structure CacheLimits where
  images : Nat
  dynamic : Nat
deriving Repr

def LIMITS : CacheLimits := { images := 50, dynamic := 100 }

/-! The eviction pass. -/

/-- Result of `limitCacheSize`: the cache store after the pass, whether
the `Promise.all` of the deletions settled fulfilled, and the console
output produced inside the function (the source logs nothing there). -/
structure EvictionResult where
  storage : CacheStorage
  resolved : Bool
  log : List String
deriving DecidableEq, Repr

/-- Source `limitCacheSize(cacheName, maxItems)`: reads the keys, and when their
count exceeds `maxItems` deletes the first `count - maxItems` keys
(`keys.slice(0, keys.length - maxItems)`), all deletions initiated
eagerly and awaited with `Promise.all`. -/
def limitCacheSize (delOk : String → Bool) (cacheName : String) (maxItems : Nat)
    (st : CacheStorage) : EvictionResult :=
  let st1 := cachesOpen st cacheName
  let keys := (getCache st1 cacheName).map (fun e => e.1)
  if keys.length > maxItems then
    let toDelete := keys.take (keys.length - maxItems)
    { storage := toDelete.foldl
        (fun acc k => if delOk k then cacheDeleteKey acc cacheName k else acc) st1,
      resolved := toDelete.all delOk,
      log := [] }
  else
    { storage := st1, resolved := true, log := [] }

/-! The three strategies. Each returns the response delivered to the
caller together with the cache store after all effects (including the
fire-and-forget background ones) have settled. -/

/-- Source `cacheFirst(request, cacheName)`. The lookup is
`caches.match(request)` over the whole store. On a global miss the
network is fetched; a 200 response is cloned into the target cache
before being returned. A rejected fetch falls back to
`caches.match('/offline.html')`, else a synthesized 503. -/
def cacheFirst (net : Network) (req : String) (cacheName : String)
    (st : CacheStorage) : Response × CacheStorage :=
  match cachesMatch st req with
  | some cached => (cached, st)
  | none =>
    match net req with
    | some nr =>
      if nr.status == 200 then
        (nr, cachePut (cachesOpen st cacheName) cacheName req nr.clone)
      else (nr, st)
    | none =>
      match cachesMatch st "/offline.html" with
      | some off => (off, st)
      | none => (offlineResponse, st)

/-- Source `networkFirst(request, cacheName)`. Fetch first; a 200 response is
cloned into the cache and `limitCacheSize(cacheName, LIMITS.dynamic)`
runs fire-and-forget. A rejected fetch falls back to
`caches.match(request)`, else a synthesized 503. -/
def networkFirst (net : Network) (delOk : String → Bool) (req : String)
    (cacheName : String) (st : CacheStorage) : Response × CacheStorage :=
  match net req with
  | some nr =>
    if nr.status == 200 then
      (nr, (limitCacheSize delOk cacheName LIMITS.dynamic
              (cachePut (cachesOpen st cacheName) cacheName req nr.clone)).storage)
    else (nr, st)
  | none =>
    match cachesMatch st req with
    | some cached => (cached, st)
    | none => (offlineResponse, st)

/-- Source `staleWhileRevalidate(request, cacheName)`. Cache lookup first; the
fetch promise on a 200 response writes the clone into the cache and runs
`limitCacheSize(cacheName, LIMITS.images)`, and on rejection resolves to
a synthesized 503. The caller gets `cachedResponse || fetchPromise`. -/
def staleWhileRevalidate (net : Network) (delOk : String → Bool) (req : String)
    (cacheName : String) (st : CacheStorage) : Response × CacheStorage :=
  let cached := cachesMatch st req
  let fetched : Response × CacheStorage :=
    match net req with
    | some nr =>
      if nr.status == 200 then
        (nr, (limitCacheSize delOk cacheName LIMITS.images
                (cachePut (cachesOpen st cacheName) cacheName req nr.clone)).storage)
      else (nr, st)
    | none => (offlineResponse, st)
  match cached with
  | some c => (c, fetched.2)
  | none => fetched

/-! The fetch-event dispatcher. -/

/-- The routing decision of the fetch handler. -/
inductive Strategy where
  | passthrough
  | useNetworkFirst (cacheName : String)
  | useStaleWhileRevalidate (cacheName : String)
  | useCacheFirst (cacheName : String)
deriving DecidableEq, Repr

/-- An intercepted request as the dispatcher sees it: its url (the cache
key), origin, pathname and destination. -/
structure Request where
  url : String
  origin : String
  pathname : String
  destination : String
deriving DecidableEq, Repr

/-- The fetch handler: skip cross-origin; `/api/` paths network-first
(dynamic); images stale-while-revalidate (image cache); script, style,
font, document cache-first (static); default network-first (dynamic). -/
def handleFetch (selfOrigin : String) (r : Request) : Strategy :=
  if r.origin != selfOrigin then
    Strategy.passthrough
  else if jsStartsWith r.pathname "/api/" then
    Strategy.useNetworkFirst DYNAMIC_CACHE
  else if r.destination == "image" then
    Strategy.useStaleWhileRevalidate IMAGE_CACHE
  else if r.destination == "script" || r.destination == "style" ||
          r.destination == "font" || r.destination == "document" then
    Strategy.useCacheFirst STATIC_CACHE
  else
    Strategy.useNetworkFirst DYNAMIC_CACHE

/-! The lifecycle handlers. -/

/-- Whether fetching a url resolves with an ok response. -/
def fetchOk (net : Network) (u : String) : Bool :=
  match net u with
  | some r => r.ok
  | none => false

/-- Platform `cache.addAll(assets)`: fetches every asset; if every fetch resolves
with an ok response the batch operation puts them all, otherwise the
whole call rejects and nothing is added (the platform addAll is
atomic). -/
def cacheAddAll (net : Network) (st : CacheStorage) (name : String)
    (assets : List String) : Option CacheStorage :=
  if assets.all (fetchOk net) then
    some (assets.foldl
      (fun acc u =>
        match net u with
        | some r => cachePut acc name u r.clone
        | none => acc) st)
  else none

/-- The install handler: open the static cache, log, `addAll` the
manifest; any rejection is caught and logged, so the `waitUntil` promise
always resolves. Returns the store and the console output. -/
def installRun (net : Network) (st : CacheStorage) : CacheStorage × List String :=
  let st1 := cachesOpen st STATIC_CACHE
  match cacheAddAll net st1 STATIC_CACHE STATIC_ASSETS with
  | some st2 => (st2, ["[SW] Caching static assets"])
  | none => (st1, ["[SW] Caching static assets", "[SW] Failed to cache static assets:"])

/-- The activate handler's deletion predicate: keep of the two `filter`
stages composed — the name starts with one of the three role markers and
is none of the three current cache names (the names are built from
version `v`). -/
def activateShouldDelete (v : String) (n : String) : Bool :=
  (jsStartsWith n "static-" || jsStartsWith n "dynamic-" || jsStartsWith n "images-")
  && (n != staticCacheName v && n != dynamicCacheName v && n != imagesCacheName v)

/-- The activate handler on the list of existing cache names: every name
selected by the two filters is deleted. -/
def activateRun (v : String) (names : List String) : List String :=
  names.filter (fun n => !activateShouldDelete v n)

/-- A message event's data. -/
structure MessageData where
  type : String
deriving DecidableEq, Repr

/-- The message handler: SKIP_WAITING calls `self.skipWaiting()`
(reported as the Bool), `CLEAR_CACHE` maps `caches.delete` over every
existing cache name; anything else is ignored. -/
def handleMessage (data : Option MessageData) (st : CacheStorage) :
    CacheStorage × Bool :=
  let skip := match data with
    | some d => d.type == "SKIP_WAITING"
    | none => false
  let st' := match data with
    | some d =>
      if d.type == "CLEAR_CACHE" then
        (st.map (fun p => p.1)).foldl (fun acc n => cachesDelete acc n) st
      else st
    | none => st
  (st', skip)

/-! Claim-side formalizations and theorems. -/

/-- The spec's rule table: an ordered list of `(predicate, strategy)`
pairs, evaluated top-to-bottom. -/
def ruleTable (selfOrigin : String) : List ((Request → Bool) × Strategy) :=
  [ (fun r => r.origin != selfOrigin, Strategy.passthrough),
    (fun r => jsStartsWith r.pathname "/api/", Strategy.useNetworkFirst DYNAMIC_CACHE),
    (fun r => r.destination == "image", Strategy.useStaleWhileRevalidate IMAGE_CACHE),
    (fun r => r.destination == "script" || r.destination == "style" ||
              r.destination == "font" || r.destination == "document",
      Strategy.useCacheFirst STATIC_CACHE),
    (fun _ => true, Strategy.useNetworkFirst DYNAMIC_CACHE) ]

/-- First match wins over an ordered rule table. -/
def firstMatch : List ((Request → Bool) × Strategy) → Request → Option Strategy
  | [], _ => none
  | (p, s) :: rest, r => if p r then some s else firstMatch rest r

/-- C1: the fetch dispatcher evaluates its rule table top-to-bottom with
first match winning: cross-origin passthrough; then `/api/` paths
network-first against the dynamic cache; then image destinations
stale-while-revalidate against the image cache; then script, style,
font, document destinations cache-first against the static cache; and
every remaining request network-first against the dynamic cache. -/
theorem fetch_dispatch_rule_table (o : String) (r : Request) :
    firstMatch (ruleTable o) r = some (handleFetch o r) := by
  simp only [ruleTable, firstMatch, handleFetch]
  split_ifs <;> simp_all

/-! Concrete inputs used by counterexamples and witnesses. -/

def respA : Response := { status := 200, body := "A" }
def respB : Response := { status := 200, body := "B" }
def respC : Response := { status := 200, body := "C" }
def respD : Response := { status := 200, body := "D" }

/-- A store whose only entry for url /app.js sits in the dynamic cache,
not in the static (target) cache. -/
def stC2 : CacheStorage := [(DYNAMIC_CACHE, [("/app.js", respA)])]

/-- A network that always answers 200 with body B. -/
def netB : Network := fun _ => some respB

/-- C2 counterexample: the cache-first lookup is not performed in the
target cache. With the only entry for /app.js in the dynamic cache, the
target (static) cache misses, so by the claim the network response
(respB) should be fetched, stored and returned; the code's global
`caches.match` returns the dynamic cache's entry (respA) instead and the
network is never consulted. -/
theorem cacheFirst_target_lookup_cex :
    cacheMatch (getCache stC2 STATIC_CACHE) "/app.js" = none ∧
    cacheFirst netB "/app.js" STATIC_CACHE stC2 = (respA, stC2) ∧
    respA ≠ respB := by
  refine ⟨rfl, rfl, by decide⟩

/-- C2 amended: the cache-first lookup is `caches.match` over the whole
store (not only the target cache). On any hit the cached response is
returned unchanged and no network fetch is performed (the result does
not depend on the network at all); on a global miss the network is
fetched and only a status-200 response is cloned into the target cache
before the network response is returned. -/
theorem cacheFirst_global_lookup (req cacheName : String) (st : CacheStorage) :
    (∀ c, cachesMatch st req = some c →
      ∀ net : Network, cacheFirst net req cacheName st = (c, st)) ∧
    (cachesMatch st req = none → ∀ (net : Network) (nr : Response), net req = some nr →
      cacheFirst net req cacheName st =
        (nr, if nr.status == 200 then
               cachePut (cachesOpen st cacheName) cacheName req nr.clone
             else st)) := by
  constructor
  · intro c hc net
    simp [cacheFirst, hc]
  · intro h net nr hn
    simp only [cacheFirst, h, hn]
    split <;> simp_all

/-- Witness for the C2 amendment at a concrete hit: the entry in the
dynamic cache is served, with the network never consulted. -/
theorem cacheFirst_global_lookup_witness :
    cacheFirst netB "/app.js" STATIC_CACHE stC2 = (respA, stC2) :=
  (cacheFirst_global_lookup "/app.js" STATIC_CACHE stC2).1 respA rfl netB

/-- C3: when the network-first fetch rejects, the strategy returns the
cached copy if one exists and otherwise the synthesized 503 "Offline"
response; and whenever the network resolves, the response delivered to
the caller is the network's own, so the synthesized 503 arises only when
both the network and the cache are unavailable for the request. -/
theorem networkFirst_offline_fallback (net : Network) (delOk : String → Bool)
    (req cacheName : String) (st : CacheStorage) :
    (net req = none →
      networkFirst net delOk req cacheName st =
        (match cachesMatch st req with
         | some c => (c, st)
         | none => (offlineResponse, st))) ∧
    (∀ nr, net req = some nr → (networkFirst net delOk req cacheName st).1 = nr) := by
  constructor
  · intro h
    simp [networkFirst, h]
  · intro nr hn
    simp only [networkFirst, hn]
    split <;> rfl

/-- Witness for C3: rejected fetch over an empty store yields the 503
Offline response. -/
theorem networkFirst_offline_fallback_witness :
    networkFirst (fun _ => none) (fun _ => true) "/x" DYNAMIC_CACHE [] =
      (offlineResponse, []) :=
  (networkFirst_offline_fallback (fun _ => none) (fun _ => true) "/x" DYNAMIC_CACHE []).1 rfl

/-- C4: stale-while-revalidate returns an existing cached response to
the caller whatever the network does (the background result is never the
caller's response); a status-200 background result overwrites the cache
entry and runs eviction enforcement; with no cached response the caller
receives the network result, a rejected fetch yielding the synthesized
503; and a fetch that never resolves successfully leaves the store
unchanged. -/
theorem staleWhileRevalidate_spec (net : Network) (delOk : String → Bool)
    (req cacheName : String) (st : CacheStorage) :
    (∀ c, cachesMatch st req = some c →
       ∀ net' : Network, (staleWhileRevalidate net' delOk req cacheName st).1 = c) ∧
    (∀ nr, net req = some nr → nr.status = 200 →
       (staleWhileRevalidate net delOk req cacheName st).2 =
         (limitCacheSize delOk cacheName LIMITS.images
            (cachePut (cachesOpen st cacheName) cacheName req nr.clone)).storage) ∧
    (cachesMatch st req = none →
       (staleWhileRevalidate net delOk req cacheName st).1 =
         (match net req with
          | some nr => nr
          | none => offlineResponse)) ∧
    (net req = none → (staleWhileRevalidate net delOk req cacheName st).2 = st) := by
  refine ⟨?_, ?_, ?_, ?_⟩
  · intro c hc net'
    cases hn : net' req <;> simp [staleWhileRevalidate, hc, hn]
  · intro nr hn h200
    cases hc : cachesMatch st req <;> simp [staleWhileRevalidate, hc, hn, h200]
  · intro hc
    cases hn : net req
    · simp [staleWhileRevalidate, hc, hn]
    · simp only [staleWhileRevalidate, hc, hn]
      split <;> simp
  · intro hn
    cases hc : cachesMatch st req <;> simp [staleWhileRevalidate, hc, hn]

/-- A store holding an image cache entry for /logo.png. -/
def stImg : CacheStorage := [(IMAGE_CACHE, [("/logo.png", respA)])]

/-- Witness for C4 at a concrete input: the cached image is returned
even though the network would answer something else. -/
theorem staleWhileRevalidate_spec_witness :
    (staleWhileRevalidate netB (fun _ => true) "/logo.png" IMAGE_CACHE stImg).1 = respA :=
  (staleWhileRevalidate_spec netB (fun _ => true) "/logo.png" IMAGE_CACHE stImg).1 respA rfl netB

/-! Helper lemmas about the cache store. -/

theorem getCache_cons (n : String) (c : Cache) (rest : CacheStorage) (name : String) :
    getCache ((n, c) :: rest) name = if n == name then c else getCache rest name := by
  cases h : n == name <;> simp [getCache, List.find?_cons, h]

theorem getCache_cacheDeleteKey (st : CacheStorage) (name k : String) :
    getCache (cacheDeleteKey st name k) name
      = (getCache st name).filter (fun e => e.1 != k) := by
  induction st with
  | nil => simp [cacheDeleteKey, getCache]
  | cons p rest ih =>
    obtain ⟨n, c⟩ := p
    by_cases h : n = name
    · simp [cacheDeleteKey, getCache_cons, h, ih]
    · simpa [cacheDeleteKey, getCache_cons, h] using ih

theorem getCache_evictFold (delOk : String → Bool) (name : String) (ks : List String) :
    ∀ st : CacheStorage,
      getCache (ks.foldl
          (fun acc k => if delOk k then cacheDeleteKey acc name k else acc) st) name
        = (getCache st name).filter (fun e => !(ks.contains e.1 && delOk e.1)) := by
  induction ks with
  | nil => intro st; simp
  | cons k ks ih =>
    intro st
    rw [List.foldl_cons]
    cases hk : delOk k
    · simp only [hk, Bool.false_eq_true, if_false]
      rw [ih st]
      apply List.filter_congr
      intro e _
      by_cases hek : e.1 = k
      · simp [hek, hk]
      · simp [hek]
    · simp only [hk, if_true]
      rw [ih (cacheDeleteKey st name k), getCache_cacheDeleteKey, List.filter_filter]
      apply List.filter_congr
      intro e _
      by_cases hek : e.1 = k
      · simp [hek, hk, bne]
      · simp [hek, bne]

/-- Filtering out the first `d` keys of a cache with pairwise-distinct
keys drops exactly its first `d` entries. -/
theorem filter_not_contains_take_eq_drop (c : Cache) :
    ∀ d : Nat, (c.map (fun e => e.1)).Nodup →
      c.filter (fun e => !(((c.map (fun e => e.1)).take d).contains e.1)) = c.drop d := by
  induction c with
  | nil => intro d _; simp
  | cons e c ih =>
    intro d hnd
    cases d with
    | zero => simp
    | succ d =>
      simp only [List.map_cons, List.take_succ_cons, List.drop_succ_cons]
      rw [List.filter_cons]
      simp only [List.map_cons] at hnd
      have hnd' := List.nodup_cons.mp hnd
      simp only [List.contains_cons, BEq.refl, Bool.true_or, Bool.not_true,
        Bool.false_eq_true, if_false]
      rw [List.filter_congr (q := fun e' => !(((c.map (fun e => e.1)).take d).contains e'.1))]
      · exact ih d hnd'.2
      · intro x hx
        have hx1 : x.1 ∈ c.map (fun e => e.1) := List.mem_map_of_mem _ hx
        have hne : ¬(x.1 = e.1) := fun hEq => hnd'.1 (hEq ▸ hx1)
        simp [hne]

/-- C5: eviction is FIFO. When a cache with pairwise-distinct keys holds
more entries than the limit, the (all-deletions-succeed) eviction pass
removes exactly the first `count - limit` entries in insertion order:
what remains is exactly the suffix of the most recently inserted
entries, whose length is exactly the limit. -/
theorem limitCacheSize_fifo (cacheName : String) (maxItems : Nat) (st : CacheStorage)
    (hnd : ((getCache (cachesOpen st cacheName) cacheName).map (fun e => e.1)).Nodup)
    (hgt : (getCache (cachesOpen st cacheName) cacheName).length > maxItems) :
    getCache (limitCacheSize (fun _ => true) cacheName maxItems st).storage cacheName
      = (getCache (cachesOpen st cacheName) cacheName).drop
          ((getCache (cachesOpen st cacheName) cacheName).length - maxItems) ∧
    (getCache (limitCacheSize (fun _ => true) cacheName maxItems st).storage cacheName).length
      = maxItems := by
  have hc : (((getCache (cachesOpen st cacheName) cacheName).map (fun e => e.1)).length
      > maxItems) := by simpa using hgt
  have h1 : getCache (limitCacheSize (fun _ => true) cacheName maxItems st).storage cacheName
      = (getCache (cachesOpen st cacheName) cacheName).drop
          ((getCache (cachesOpen st cacheName) cacheName).length - maxItems) := by
    simp only [limitCacheSize, hc, if_true]
    have hfold := getCache_evictFold (fun _ => true) cacheName
      ((List.map (fun e => e.1) (getCache (cachesOpen st cacheName) cacheName)).take
        ((List.map (fun e => e.1) (getCache (cachesOpen st cacheName) cacheName)).length
          - maxItems))
      (cachesOpen st cacheName)
    simp only [if_true, Bool.and_true] at hfold
    rw [hfold]
    simp only [List.length_map]
    exact filter_not_contains_take_eq_drop (getCache (cachesOpen st cacheName) cacheName)
      ((getCache (cachesOpen st cacheName) cacheName).length - maxItems) hnd
  refine ⟨h1, ?_⟩
  rw [h1, List.length_drop]
  omega

/-- The spec's FIFO example: entries inserted in order A, B, C, D with
limit 2. -/
def stFifo : CacheStorage :=
  [("imgs", [("A", respA), ("B", respB), ("C", respC), ("D", respD)])]

/-- Witness for C5: with entries A, B, C, D and limit 2, exactly C and D
remain after the eviction pass. -/
theorem limitCacheSize_fifo_witness :
    getCache (limitCacheSize (fun _ => true) "imgs" 2 stFifo).storage "imgs"
      = [("C", respC), ("D", respD)] := by
  have h := limitCacheSize_fifo "imgs" 2 stFifo (by decide) (by decide)
  exact h.1.trans (by decide)

/-! String facts about the versioned cache names. -/

theorem jsStartsWith_append (p s : String) : jsStartsWith (p ++ s) p = true := by
  simp [jsStartsWith]

theorem jsStartsWith_iff_exists (n p : String) :
    jsStartsWith n p = true ↔ ∃ s, n = p ++ s := by
  constructor
  · intro h
    simp only [jsStartsWith, List.isPrefixOf_iff_prefix] at h
    obtain ⟨t, ht⟩ := h
    refine ⟨⟨t⟩, ?_⟩
    cases n with
    | mk d =>
      cases p with
      | mk pd =>
        simp only [String.data] at ht
        simp [ht.symm]
        rfl
  · rintro ⟨s, rfl⟩
    simp [jsStartsWith]

theorem string_append_left_cancel {p s v : String} (h : p ++ s = p ++ v) : s = v := by
  cases s with
  | mk sd =>
    cases v with
    | mk vd =>
      cases p with
      | mk pd =>
        simp only [String.ext_iff] at h ⊢
        simpa using h

theorem startsStatic (s : String) : jsStartsWith (staticCacheName s) "static-" = true :=
  jsStartsWith_append "static-" s

theorem startsDynamic (s : String) : jsStartsWith (dynamicCacheName s) "dynamic-" = true :=
  jsStartsWith_append "dynamic-" s

theorem startsImages (s : String) : jsStartsWith (imagesCacheName s) "images-" = true :=
  jsStartsWith_append "images-" s

theorem dyn_not_static (v : String) : jsStartsWith (dynamicCacheName v) "static-" = false := rfl

theorem img_not_static (v : String) : jsStartsWith (imagesCacheName v) "static-" = false := rfl

theorem sta_not_dynamic (v : String) : jsStartsWith (staticCacheName v) "dynamic-" = false := rfl

theorem img_not_dynamic (v : String) : jsStartsWith (imagesCacheName v) "dynamic-" = false := rfl

theorem sta_not_images (v : String) : jsStartsWith (staticCacheName v) "images-" = false := rfl

theorem dyn_not_images (v : String) : jsStartsWith (dynamicCacheName v) "images-" = false := rfl

/-- C6: the activation purge deletes a cache name exactly when it is a
versioned name of one of the three known roles whose version part
differs from the active version; names carrying no known role marker are
never deleted. In particular, activating version v2 over caches
static-v1, dynamic-v1, images-v1, unrelated-foo deletes the first three
and leaves unrelated-foo untouched. -/
theorem activate_purge_characterization :
    (∀ v n : String, activateShouldDelete v n = true ↔
       ((∃ s, n = staticCacheName s ∧ s ≠ v) ∨
        (∃ s, n = dynamicCacheName s ∧ s ≠ v) ∨
        (∃ s, n = imagesCacheName s ∧ s ≠ v))) ∧
    activateRun "v2" ["static-v1", "dynamic-v1", "images-v1", "unrelated-foo"]
      = ["unrelated-foo"] := by
  constructor
  · intro v n
    constructor
    · intro h
      simp only [activateShouldDelete, Bool.and_eq_true, Bool.or_eq_true, bne_iff_ne] at h
      obtain ⟨hp, ⟨hS, hD⟩, hI⟩ := h
      rcases hp with (hs | hd) | hi
      · obtain ⟨s, rfl⟩ := (jsStartsWith_iff_exists n "static-").mp hs
        exact Or.inl ⟨s, rfl, fun hEq => hS (by rw [hEq]; rfl)⟩
      · obtain ⟨s, rfl⟩ := (jsStartsWith_iff_exists n "dynamic-").mp hd
        exact Or.inr (Or.inl ⟨s, rfl, fun hEq => hD (by rw [hEq]; rfl)⟩)
      · obtain ⟨s, rfl⟩ := (jsStartsWith_iff_exists n "images-").mp hi
        exact Or.inr (Or.inr ⟨s, rfl, fun hEq => hI (by rw [hEq]; rfl)⟩)
    · rintro (⟨s, rfl, hsv⟩ | ⟨s, rfl, hsv⟩ | ⟨s, rfl, hsv⟩) <;>
        simp only [activateShouldDelete, Bool.and_eq_true, Bool.or_eq_true, bne_iff_ne]
      · refine ⟨Or.inl (Or.inl (startsStatic s)), ⟨?_, ?_⟩, ?_⟩
        · exact fun hEq => hsv (string_append_left_cancel hEq)
        · intro hEq
          have h1 := startsStatic s
          rw [hEq, dyn_not_static v] at h1
          simp at h1
        · intro hEq
          have h1 := startsStatic s
          rw [hEq, img_not_static v] at h1
          simp at h1
      · refine ⟨Or.inl (Or.inr (startsDynamic s)), ⟨?_, ?_⟩, ?_⟩
        · intro hEq
          have h1 := startsDynamic s
          rw [hEq, sta_not_dynamic v] at h1
          simp at h1
        · exact fun hEq => hsv (string_append_left_cancel hEq)
        · intro hEq
          have h1 := startsDynamic s
          rw [hEq, img_not_dynamic v] at h1
          simp at h1
      · refine ⟨Or.inr (startsImages s), ⟨?_, ?_⟩, ?_⟩
        · intro hEq
          have h1 := startsImages s
          rw [hEq, sta_not_images v] at h1
          simp at h1
        · intro hEq
          have h1 := startsImages s
          rw [hEq, dyn_not_images v] at h1
          simp at h1
        · exact fun hEq => hsv (string_append_left_cancel hEq)
  · decide

/-- Witness for C6 at a concrete name: static-v1 is deleted when v2 is
the active version. -/
theorem activate_purge_characterization_witness :
    activateShouldDelete "v2" "static-v1" = true :=
  (activate_purge_characterization.1 "v2" "static-v1").mpr
    (Or.inl ⟨"v1", rfl, by decide⟩)

/-! The clear-all control message. -/

theorem foldl_cachesDelete_all (names : List String) :
    ∀ st : CacheStorage, (∀ p ∈ st, p.1 ∈ names) →
      names.foldl (fun acc n => cachesDelete acc n) st = [] := by
  induction names with
  | nil =>
    intro st h
    cases st with
    | nil => rfl
    | cons p rest => exact absurd (h p (List.mem_cons_self p rest)) (List.not_mem_nil p.1)
  | cons n ns ih =>
    intro st h
    rw [List.foldl_cons]
    apply ih
    intro p hp
    have hmem := List.mem_filter.mp hp
    have hne : p.1 ≠ n := by simpa using hmem.2
    rcases List.mem_cons.mp (h p hmem.1) with hEq | hmemns
    · exact absurd hEq hne
    · exact hmemns

/-- C7 counterexample: a cache named unrelated-foo carries none of the
recognized role markers, yet the CLEAR_CACHE message deletes it — the
handler maps `caches.delete` over every existing cache name with no
role filter. -/
theorem message_clear_cache_cex :
    (jsStartsWith "unrelated-foo" "static-" = false ∧
     jsStartsWith "unrelated-foo" "dynamic-" = false ∧
     jsStartsWith "unrelated-foo" "images-" = false) ∧
    (handleMessage (some { type := "CLEAR_CACHE" }) [("unrelated-foo", [])]).1 = [] := by
  decide

/-- C7 amended: on a CLEAR_CACHE control message the handler deletes
every existing cache, whatever its name — recognized role markers and
unrelated names alike. -/
theorem message_clear_cache_deletes_all (st : CacheStorage) :
    (handleMessage (some { type := "CLEAR_CACHE" }) st).1 = [] := by
  simp only [handleMessage]
  norm_num
  exact foldl_cachesDelete_all _ st (fun p hp => List.mem_map_of_mem _ hp)

/-! The install handler. -/

/-- A network where the fetch of /index.html rejects and every other
fetch succeeds with a 200. -/
def netC8 : Network := fun u => if u == "/index.html" then none else some respB

/-- C8 counterexample: with only /index.html failing, the fetch of /
succeeds and yet nothing at all lands in the static cache — the atomic
`addAll` rejection aborts the installation of the other assets too
(the failure is still logged and the install event itself completes). -/
theorem install_partial_failure_cex :
    netC8 "/" = some respB ∧ respB.ok = true ∧
    installRun netC8 [] =
      ([(STATIC_CACHE, [])],
       ["[SW] Caching static assets", "[SW] Failed to cache static assets:"]) := by
  decide

/-- C8 amended: pre-population is atomic. When every manifest asset
fetches ok, all of them are written to the static cache; when any one
of them fails, none are written, the failure is logged and the install
completes anyway (the rejection is caught, so installation as a whole
never fails through this path). -/
theorem install_addAll_atomic (net : Network) (st : CacheStorage) :
    (STATIC_ASSETS.all (fetchOk net) = true →
       installRun net st =
         (STATIC_ASSETS.foldl
            (fun acc u =>
              match net u with
              | some r => cachePut acc STATIC_CACHE u r.clone
              | none => acc) (cachesOpen st STATIC_CACHE),
          ["[SW] Caching static assets"])) ∧
    (STATIC_ASSETS.all (fetchOk net) = false →
       installRun net st =
         (cachesOpen st STATIC_CACHE,
          ["[SW] Caching static assets", "[SW] Failed to cache static assets:"])) := by
  constructor
  · intro h
    simp [installRun, cacheAddAll, h]
  · intro h
    simp [installRun, cacheAddAll, h]

/-- Witness for the C8 amendment: an all-ok network populates the static
cache with the whole manifest. -/
theorem install_addAll_atomic_witness :
    installRun netB [] =
      ([(STATIC_CACHE,
         [("/", respB), ("/index.html", respB), ("/manifest.json", respB),
          ("/favicon.png", respB)])],
       ["[SW] Caching static assets"]) := by
  have h := (install_addAll_atomic netB []).1 (by decide)
  exact h.trans (by decide)

/-! Eviction failure handling. -/

/-- A deletion oracle under which deleting key A rejects and every other
deletion succeeds. -/
def delOkFailA : String → Bool := fun k => k != "A"

/-- A cache with entries A, B, C in insertion order. -/
def stABC : CacheStorage := [("c", [("A", respA), ("B", respB), ("C", respC)])]

/-- C9 counterexample: with limit 1 the pass schedules deletions of A
and B; A's deletion fails. Nothing is logged (the log is empty), the
pass's own promise rejects (resolved = false), while B — already
initiated — is still deleted. The claim's "the failure is logged" does
not hold of the code. -/
theorem limitCacheSize_failure_cex :
    limitCacheSize delOkFailA "c" 1 stABC =
      { storage := [("c", [("A", respA), ("C", respC)])],
        resolved := false,
        log := [] } := by
  decide

/-- C9 amended: an individual deletion failure is not logged (the pass
produces no console output) and makes the pass's promise reject, but all
deletions were already initiated, so every scheduled key whose own
deletion succeeds is still removed; and since callers never await the
pass, the response a caller receives is unaffected by deletion
failures. -/
theorem limitCacheSize_best_effort (delOk : String → Bool) (cacheName : String)
    (maxItems : Nat) (st : CacheStorage) (net : Network) (req : String)
    (st2 : CacheStorage) :
    (limitCacheSize delOk cacheName maxItems st).log = [] ∧
    (∀ k ∈ ((getCache (cachesOpen st cacheName) cacheName).map (fun e => e.1)).take
        (((getCache (cachesOpen st cacheName) cacheName).map (fun e => e.1)).length
          - maxItems),
      delOk k = true →
        cacheMatch
          (getCache (limitCacheSize delOk cacheName maxItems st).storage cacheName)
          k = none) ∧
    (networkFirst net delOk req cacheName st2).1
      = (networkFirst net (fun _ => true) req cacheName st2).1 := by
  refine ⟨?_, ?_, ?_⟩
  · simp only [limitCacheSize]
    split <;> rfl
  · intro k hk hdel
    by_cases hgt : (((getCache (cachesOpen st cacheName) cacheName).map
        (fun e => e.1)).length > maxItems)
    · simp only [limitCacheSize, hgt, if_true]
      rw [getCache_evictFold]
      simp only [cacheMatch]
      rw [List.find?_eq_none.mpr]
      · rfl
      · intro e he hbeq
        have heq : e.1 = k := by simpa using hbeq
        have hmem := List.mem_filter.mp he
        rw [heq] at hmem
        have hcont : (((getCache (cachesOpen st cacheName) cacheName).map
            (fun e => e.1)).take
              (((getCache (cachesOpen st cacheName) cacheName).map
                (fun e => e.1)).length - maxItems)).contains k = true := by
          simpa [List.contains] using hk
        have h2 := hmem.2
        rw [hcont, hdel] at h2
        simp at h2
    · have h0 : ((getCache (cachesOpen st cacheName) cacheName).map
          (fun e => e.1)).length - maxItems = 0 := by omega
      rw [h0, List.take_zero] at hk
      simp at hk
  · cases hn : net req
    · simp [networkFirst, hn]
    · simp only [networkFirst, hn]
      split <;> rfl

/-- Witness for the C9 amendment: key B, scheduled together with the
failing key A, is still deleted. -/
theorem limitCacheSize_best_effort_witness :
    cacheMatch (getCache (limitCacheSize delOkFailA "c" 1 stABC).storage "c") "B"
      = none :=
  (limitCacheSize_best_effort delOkFailA "c" 1 stABC netB "/x" []).2.1 "B"
    (by decide) (by decide)

/-! Non-200 network responses. -/

def resp404 : Response := { status := 404, body := "not found" }

/-- A network that always answers 404. -/
def net404 : Network := fun _ => some resp404

/-- C10 counterexample: stale-while-revalidate with a cached entry and a
404 network response returns the cached response, not the network
response — the claim that all three strategies return a non-200 network
response unchanged fails for stale-while-revalidate on a cache hit. -/
theorem non200_swr_cex :
    net404 "/logo.png" = some resp404 ∧ resp404.status ≠ 200 ∧
    (staleWhileRevalidate net404 (fun _ => true) "/logo.png" IMAGE_CACHE stImg).1
      = respA ∧
    respA ≠ resp404 := by
  refine ⟨rfl, by decide, by decide, by decide⟩

/-- C10 amended: on a network response whose status is not 200, no
strategy writes to any cache or runs an eviction pass (the store is
returned unchanged); cache-first (on a global miss — on a hit it never
fetches) and network-first return that network response unchanged, and
stale-while-revalidate returns it unchanged exactly when no cached
response exists (a cached response is returned instead otherwise). -/
theorem non200_passthrough (net : Network) (delOk : String → Bool)
    (req cacheName : String) (st : CacheStorage) (nr : Response)
    (hn : net req = some nr) (h200 : nr.status ≠ 200) :
    (cachesMatch st req = none → cacheFirst net req cacheName st = (nr, st)) ∧
    networkFirst net delOk req cacheName st = (nr, st) ∧
    (staleWhileRevalidate net delOk req cacheName st).2 = st ∧
    (cachesMatch st req = none →
      staleWhileRevalidate net delOk req cacheName st = (nr, st)) := by
  have hb : (nr.status == 200) = false := by simpa using h200
  refine ⟨?_, ?_, ?_, ?_⟩
  · intro hc
    simp [cacheFirst, hc, hn, hb]
  · simp [networkFirst, hn, hb]
  · cases hc : cachesMatch st req <;> simp [staleWhileRevalidate, hc, hn, hb]
  · intro hc
    simp [staleWhileRevalidate, hc, hn, hb]

/-- Witness for the C10 amendment: a 404 from the network is handed back
unchanged by network-first with the store untouched. -/
theorem non200_passthrough_witness :
    networkFirst net404 (fun _ => true) "/x" DYNAMIC_CACHE [] = (resp404, []) :=
  (non200_passthrough net404 (fun _ => true) "/x" DYNAMIC_CACHE [] resp404 rfl
    (by decide)).2.1

end SW
